import Mathlib

/-!
Shallow embedding of the error-relocation and type-candidate machinery of the
graphql-tools stitching engine, together with theorems settling the frozen
claims about it.

Embedded source files:
* packages/utils/src/errors.ts (relocatedError, slicedError,
  getErrorsByPathSegment, setErrors, getErrors)
* packages/stitch/src/typeCandidates.ts (setOperationTypeNames, buildTypeMap,
  onTypeConflictToCandidateSelector)
* packages/wrap/src/transforms/WrapType.ts (WrapType)

External-library values (GraphQLError construction, isSpecifiedScalarType,
schemas, requests) are modelled by explicit structures or opaque numeric
handles; fields that the embedded code only copies around are carried as
handles.
-/

namespace GraphQLTools

/-- One segment of a GraphQL error path: a field name or a list index. -/
inductive PathSegment where
  | str (s : String)
  | idx (n : Nat)
  deriving DecidableEq

/-- Model of a graphql-js GraphQLError as built by the 7-argument constructor
`new GraphQLError(message, nodes, source, positions, path, originalError,
extensions)`.  `nodes`, `source` and `originalError` are opaque handles; the
derived `locations` field of graphql-js is a pure function of `nodes`,
`source` and `positions`, so preserving those three preserves it.  `none`
stands for a JavaScript `undefined`/absent value. -/
structure GraphQLError where
  message : String
  nodes : Option Nat
  source : Option Nat
  positions : Option (List Nat)
  path : Option (List PathSegment)
  originalError : Option Nat
  extensions : Option (List (String × String))
  deriving DecidableEq

/-- The optional `path` argument of `relocatedError`.  JavaScript
distinguishes the argument being omitted (`undefined`), being the literal
`null`, and being an actual array; all three are distinguished by the
source line `path === null ? undefined : path === undefined ?
originalError.path : path`. -/
inductive PathArg where
  | noArg
  | nullArg
  | pathArg (p : List PathSegment)
  deriving DecidableEq

/-- errors.ts `relocatedError`: rebuilds the error with every constructor
field copied from the original except the path, which is `undefined` when
the argument is `null`, the original path when the argument is omitted, and
the argument itself otherwise. -/
def relocatedError (originalError : GraphQLError) (path : PathArg) : GraphQLError :=
  { message := originalError.message
    nodes := originalError.nodes
    source := originalError.source
    positions := originalError.positions
    path :=
      match path with
      | PathArg.nullArg => none
      | PathArg.noArg => originalError.path
      | PathArg.pathArg p => some p
    originalError := originalError.originalError
    extensions := originalError.extensions }

/-- errors.ts `slicedError`: relocate to `originalError.path.slice(1)` when a
path is present, otherwise pass `undefined` (argument omitted). -/
def slicedError (originalError : GraphQLError) : GraphQLError :=
  relocatedError originalError
    (match originalError.path with
     | some p => PathArg.pathArg (List.tail p)
     | none => PathArg.noArg)

/-- JavaScript object keys are strings: a numeric path segment used as a key
is coerced to its decimal string. -/
def segKey : PathSegment → String
  | PathSegment.str s => s
  | PathSegment.idx n => toString n

/-- Ordered string-keyed record, as a JavaScript object with string keys:
lookup of a key. -/
def lookupRec {α : Type} : List (String × α) → String → Option α
  | [], _ => none
  | (k, v) :: rest, key => if k = key then some v else lookupRec rest key

/-- Ordered string-keyed record: assignment `record[key] = v`, keeping the
position of an existing key and appending a fresh key at the end. -/
def setRec {α : Type} : List (String × α) → String → α → List (String × α)
  | [], key, v => [(key, v)]
  | (k, w) :: rest, key, v =>
      if k = key then (k, v) :: rest else (k, w) :: setRec rest key v

/-- One iteration of the `errors.forEach` loop in
`getErrorsByPathSegment`: skip the error when it has no path or fewer than
two segments, otherwise push its sliced form onto the record entry keyed by
`error.path[1]`. -/
def getErrorsByPathSegmentStep (record : List (String × List GraphQLError))
    (error : GraphQLError) : List (String × List GraphQLError) :=
  match error.path with
  | some (_ :: pathSegment :: _) =>
      let key := segKey pathSegment
      let current := (lookupRec record key).getD []
      setRec record key (current ++ [slicedError error])
  | _ => record

/-- errors.ts `getErrorsByPathSegment`. -/
def getErrorsByPathSegment (errors : List GraphQLError) :
    List (String × List GraphQLError) :=
  List.foldl getErrorsByPathSegmentStep [] errors

/-- The record key under which `getErrorsByPathSegment` files an error:
the string form of the second path element, absent when the error is
dropped. -/
def childKey (error : GraphQLError) : Option String :=
  match error.path with
  | some (_ :: pathSegment :: _) => some (segKey pathSegment)
  | _ => none

/-- Specification-side description of one record entry: the retained errors
whose second path element stringifies to `key`, in input order, each with
its leading path segment stripped. -/
def childGroup (errors : List GraphQLError) (key : String) : List GraphQLError :=
  (errors.filter (fun e => decide (childKey e = some key))).map
    (fun e => { e with path := Option.map List.tail e.path })

/-- Model of a partial-result value: `data` is a handle for all of the
visible (string-keyed) content, `subschemaErrors` is the slot addressed by
the hidden `ERROR_SYMBOL` key. -/
structure ResultValue where
  data : Nat
  subschemaErrors : Option (List GraphQLError)
  deriving DecidableEq

/-- errors.ts `setErrors`: store the list under `ERROR_SYMBOL`, leaving the
visible content alone. -/
def setErrors (result : ResultValue) (errors : List GraphQLError) : ResultValue :=
  { result with subschemaErrors := some errors }

/-- The filter condition of the loop in `getErrors`:
`!error.path || error.path[0] === pathSegment`.  A `null`/`undefined` path
passes; an empty array has `path[0] === undefined`, which never strictly
equals a string; a numeric first segment never strictly equals a string. -/
def errorAppliesTo (error : GraphQLError) (pathSegment : String) : Bool :=
  match error.path with
  | none => true
  | some [] => false
  | some (seg :: _) => seg = PathSegment.str pathSegment

/-- errors.ts `getErrors`: `null` when the result is nullish or carries no
attached array, otherwise the errors passing `errorAppliesTo`. -/
def getErrors (result : Option ResultValue) (pathSegment : String) :
    Option (List GraphQLError) :=
  match result with
  | none => none
  | some r =>
      match r.subschemaErrors with
      | none => none
      | some errors => some (errors.filter (fun e => errorAppliesTo e pathSegment))

/-- One `operationTypes` entry of a schema-definition or schema-extension
AST node: `operation` is "query", "mutation" or "subscription";
`typeName` is `operationType.type.name.value`. -/
structure OperationTypeDef where
  operation : String
  typeName : String
  deriving DecidableEq

/-- A schema-definition or schema-extension AST node, reduced to the only
field `setOperationTypeNames` reads. -/
structure SchemaNode where
  operationTypes : Option (List OperationTypeDef)
  deriving DecidableEq

/-- The node list built by `setOperationTypeNames`: the extensions, with the
definition node unshifted to the front when present. -/
def allOperationNodes (schemaDef : Option SchemaNode) (schemaExtensions : List SchemaNode) :
    List SchemaNode :=
  match schemaDef with
  | some d => d :: schemaExtensions
  | none => schemaExtensions

/-- typeCandidates.ts `setOperationTypeNames`: walk the definition node (if
any) and then every extension node in order, assigning
`operationTypeNames[operation] = typeName` for each operation-type entry. -/
def setOperationTypeNames (schemaDef : Option SchemaNode)
    (schemaExtensions : List SchemaNode)
    (operationTypeNames : List (String × String)) : List (String × String) :=
  List.foldl
    (fun acc node =>
      match node.operationTypes with
      | some ots =>
          List.foldl (fun a ot => setRec a ot.operation ot.typeName) acc ots
      | none => acc)
    operationTypeNames
    (allOperationNodes schemaDef schemaExtensions)

/-- Specification-side: the last assignment to `op` inside one node, if any. -/
def findLastOp (ots : List OperationTypeDef) (op : String) : Option String :=
  match ots with
  | [] => none
  | ot :: rest =>
      match findLastOp rest op with
      | some n => some n
      | none => if ot.operation = op then some ot.typeName else none

/-- Specification-side: the last assignment to `op` made by a node. -/
def nodeAssigns (node : SchemaNode) (op : String) : Option String :=
  match node.operationTypes with
  | some ots => findLastOp ots op
  | none => none

/-- Specification-side: the assignment made by the last node in the list
that assigns `op` at all — later nodes take precedence. -/
def lastAssignment (nodes : List SchemaNode) (op : String) : Option String :=
  match nodes with
  | [] => none
  | node :: rest =>
      match lastAssignment rest op with
      | some n => some n
      | none => nodeAssigns node op

/-- Kind of a named GraphQL type. -/
inductive TypeKind where
  | scalar
  | object
  | interfaceType
  | union
  | enum
  | inputObject
  deriving DecidableEq

/-- A named GraphQL type.  The embedded stitching code reads a type's name
and kind and compares type objects by JavaScript reference equality (===);
`ref` models that object identity — distinct type objects carry distinct
refs, and a freshly constructed object carries a ref no existing object
has — so structural equality of a `GType` coincides with the source's
reference equality on type objects. -/
structure GType where
  ref : Nat
  name : String
  kind : TypeKind
  deriving DecidableEq

/-- graphql-js `isSpecifiedScalarType`: the type is one of the five built-in
scalars. -/
def isSpecifiedScalarType (t : GType) : Bool :=
  decide (t.kind = TypeKind.scalar) &&
    (t.name == "Int" || t.name == "Float" || t.name == "String" ||
      t.name == "Boolean" || t.name == "ID")

/-- One contribution of a type under a given name.  `subschema` and
`transformedSchema` are opaque handles to the originating subschema config
and its wrapped schema; both are absent on locally declared candidates and
on the synthetic candidate built by the conflict selector. -/
structure MergeTypeCandidate where
  type : GType
  subschema : Option Nat
  transformedSchema : Option Nat
  schemaName : Option String
  deriving DecidableEq

/-- One side of the info record handed to an `onTypeConflict` callback. -/
structure ConflictSide where
  schema : Option Nat
  deriving DecidableEq

/-- The info record handed to an `onTypeConflict` callback. -/
structure ConflictInfo where
  left : ConflictSide
  right : ConflictSide
  deriving DecidableEq

/-- The `onTypeConflict` callback: two competing types plus origin info,
returning the winning type. -/
abbrev OnTypeConflictFn : Type := GType → GType → ConflictInfo → GType

/-- The `mergeTypes` option: a boolean, an explicit name list, or a
predicate over a candidate list and a type name. -/
inductive MergeTypesPolicy where
  | bool (b : Bool)
  | list (names : List String)
  | fn (f : List MergeTypeCandidate → String → Bool)

/-- The only part of `StitchingInfo` that `buildTypeMap` reads: the key set
of its `mergedTypes` record. -/
structure StitchingInfoKeys where
  mergedTypes : List String
  deriving DecidableEq

/-- The body of the `reduce` in `onTypeConflictToCandidateSelector`: call
the callback on the two candidate types with each side's transformed schema,
keep `prev` when its type wins, move to `next` when its type wins, and
otherwise wrap the returned type in a fresh candidate whose `schemaName` is
"unknown" and which carries no subschema information. -/
def conflictStep (onTypeConflict : OnTypeConflictFn)
    (prev next : MergeTypeCandidate) : MergeTypeCandidate :=
  let t := onTypeConflict prev.type next.type
    { left := { schema := prev.transformedSchema }
      right := { schema := next.transformedSchema } }
  if prev.type = t then prev
  else if next.type = t then next
  else { type := t, subschema := none, transformedSchema := none,
         schemaName := some "unknown" }

/-- typeCandidates.ts `onTypeConflictToCandidateSelector`: a left-to-right
`reduce` of the candidate list with `conflictStep`.  A JavaScript `reduce`
of an empty array with no initial value throws, modelled as `none`. -/
def onTypeConflictToCandidateSelector (onTypeConflict : OnTypeConflictFn) :
    List MergeTypeCandidate → Option MergeTypeCandidate
  | [] => none
  | c :: rest => some (List.foldl (conflictStep onTypeConflict) c rest)

/-- The merge-versus-select condition of `buildTypeMap`, in source order:
the name is a root-operation type name, or `mergeTypes === true` and no
candidate is a built-in scalar, or the predicate policy accepts the name,
or the list policy contains the name, or stitching info covers the name. -/
def shouldMergeType (operationTypeNames : List (String × String))
    (mergeTypes : MergeTypesPolicy) (stitchingInfo : Option StitchingInfoKeys)
    (typeName : String) (cands : List MergeTypeCandidate) : Bool :=
  decide (lookupRec operationTypeNames "query" = some typeName) ||
  decide (lookupRec operationTypeNames "mutation" = some typeName) ||
  decide (lookupRec operationTypeNames "subscription" = some typeName) ||
  (match mergeTypes with
   | MergeTypesPolicy.bool b =>
       b && !(cands.any (fun c => isSpecifiedScalarType c.type))
   | _ => false) ||
  (match mergeTypes with
   | MergeTypesPolicy.fn f => f cands typeName
   | _ => false) ||
  (match mergeTypes with
   | MergeTypesPolicy.list names => names.contains typeName
   | _ => false) ||
  (match stitchingInfo with
   | some si => si.mergedTypes.contains typeName
   | none => false)

/-- The per-name body of the loop in `buildTypeMap`.  `mergeCandidates`
lives in mergeCandidates.ts, outside the embedded excerpt, so it is a
parameter: the claims only constrain which of `mergeCandidates` and
single-winner selection is used.  Selecting from an empty candidate list
reads `.type` of `undefined` in JavaScript, modelled as `none`; on the
merge path `mergeCandidates` receives the name, the full candidate list and
the `typeMergingOptions` handle. -/
def buildTypeMapEntry
    (mergeCandidates : String → List MergeTypeCandidate → Option Nat → GType)
    (stitchingInfo : Option StitchingInfoKeys)
    (operationTypeNames : List (String × String))
    (onTypeConflict : Option OnTypeConflictFn)
    (mergeTypes : MergeTypesPolicy)
    (typeMergingOptions : Option Nat)
    (typeName : String) (cands : List MergeTypeCandidate) : Option GType :=
  if shouldMergeType operationTypeNames mergeTypes stitchingInfo typeName cands then
    some (mergeCandidates typeName cands typeMergingOptions)
  else
    match onTypeConflict with
    | some cb => (onTypeConflictToCandidateSelector cb cands).map
        (fun c => c.type)
    | none => (List.getLast? cands).map (fun c => c.type)

/-- typeCandidates.ts `buildTypeMap`: apply `buildTypeMapEntry` to every
entry of the candidate table. -/
def buildTypeMap
    (mergeCandidates : String → List MergeTypeCandidate → Option Nat → GType)
    (stitchingInfo : Option StitchingInfoKeys)
    (operationTypeNames : List (String × String))
    (onTypeConflict : Option OnTypeConflictFn)
    (mergeTypes : MergeTypesPolicy)
    (typeMergingOptions : Option Nat)
    (typeCandidates : List (String × List MergeTypeCandidate)) :
    List (String × Option GType) :=
  typeCandidates.map (fun entry =>
    (entry.1,
     buildTypeMapEntry mergeCandidates stitchingInfo operationTypeNames
       onTypeConflict mergeTypes typeMergingOptions entry.1 entry.2))

/-- Opaque handle types for the values a Transform only forwards. -/
abbrev GraphQLSchemaRef : Type := Nat

/-- Opaque handle for a SubschemaConfig. -/
abbrev SubschemaConfigRef : Type := Nat

/-- Opaque handle for a Request. -/
abbrev RequestRef : Type := Nat

/-- Opaque handle for an ExecutionResult. -/
abbrev ExecutionResultRef : Type := Nat

/-- Opaque handle for a DelegationContext. -/
abbrev DelegationContextRef : Type := Nat

/-- Opaque handle for the per-delegation transformation context record. -/
abbrev TransformationContextRef : Type := Nat

/-- The three-phase Transform interface. -/
structure Transform where
  transformSchema : GraphQLSchemaRef → Option SubschemaConfigRef → GraphQLSchemaRef
  transformRequest : RequestRef → DelegationContextRef → TransformationContextRef → RequestRef
  transformResult : ExecutionResultRef → DelegationContextRef → TransformationContextRef → ExecutionResultRef

/-- WrapType.ts: the constructor stores
`new WrapFields(outerTypeName, [fieldName], [innerTypeName])` and each of
the three methods forwards to the stored transformer.  WrapFields.ts is
outside the embedded excerpt, so the `WrapFields` constructor is a
parameter. -/
def WrapType (wrapFields : String → List String → List String → Transform)
    (outerTypeName innerTypeName fieldName : String) : Transform :=
  let transformer := wrapFields outerTypeName [fieldName] [innerTypeName]
  { transformSchema := fun schema subschemaConfig =>
      transformer.transformSchema schema subschemaConfig
    transformRequest := fun req delegationContext transformationContext =>
      transformer.transformRequest req delegationContext transformationContext
    transformResult := fun res delegationContext transformationContext =>
      transformer.transformResult res delegationContext transformationContext }

/-- Concrete errors for the group-by-path-segment example of the claim:
e1 has path [x, 1], e2 has path [y], e3 has path [x, 2]. -/
def exGroupE1 : GraphQLError :=
  { message := "e1", nodes := none, source := none, positions := none,
    path := some [PathSegment.str "x", PathSegment.idx 1],
    originalError := none, extensions := none }

/-- Second example error, path [y]. -/
def exGroupE2 : GraphQLError :=
  { message := "e2", nodes := none, source := none, positions := none,
    path := some [PathSegment.str "y"],
    originalError := none, extensions := none }

/-- Third example error, path [x, 2]. -/
def exGroupE3 : GraphQLError :=
  { message := "e3", nodes := none, source := none, positions := none,
    path := some [PathSegment.str "x", PathSegment.idx 2],
    originalError := none, extensions := none }

/-- Concrete error with a nonempty path, used to exercise `relocatedError`
at the `null` argument. -/
def exRelocErr : GraphQLError :=
  { message := "boom", nodes := some 1, source := some 2,
    positions := some [7], path := some [PathSegment.str "x"],
    originalError := some 3, extensions := some [("code", "BAD")] }

/-- Concrete schema-definition node assigning the query role to "A". -/
def exSchemaDef : SchemaNode :=
  { operationTypes := some [{ operation := "query", typeName := "A" }] }

/-- Concrete schema-extension node assigning the query role to "B". -/
def exSchemaExt : SchemaNode :=
  { operationTypes := some [{ operation := "query", typeName := "B" }] }

/-- Concrete stand-in for the external `mergeCandidates` algorithm: builds
a fresh object type carrying the name. -/
def exMergeCandidates : String → List MergeTypeCandidate → Option Nat → GType :=
  fun name _ _ => { ref := 100, name := name, kind := TypeKind.object }

/-- Concrete candidate from a first subschema. -/
def exCandA : MergeTypeCandidate :=
  { type := { ref := 20, name := "T", kind := TypeKind.object },
    subschema := some 0, transformedSchema := some 10, schemaName := none }

/-- Concrete candidate from a second subschema, same name, different shape. -/
def exCandB : MergeTypeCandidate :=
  { type := { ref := 21, name := "T", kind := TypeKind.enum },
    subschema := some 1, transformedSchema := some 11, schemaName := none }

/-- Concrete candidate whose type is the built-in String scalar. -/
def exCandScalar : MergeTypeCandidate :=
  { type := { ref := 22, name := "String", kind := TypeKind.scalar },
    subschema := some 2, transformedSchema := some 12, schemaName := none }

/-- Concrete conflict callback that always keeps the left-hand type. -/
def exConflictLeft : OnTypeConflictFn := fun l _ _ => l

/-- Candidate for the paradigm conflict: an object type "U" from a third
subschema. -/
def exCandC : MergeTypeCandidate :=
  { type := { ref := 30, name := "U", kind := TypeKind.object },
    subschema := some 3, transformedSchema := some 13, schemaName := none }

/-- Candidate with the SAME name and kind as `exCandC` but contributed by a
different subschema: a reference-distinct type object, hence a distinct
ref. -/
def exCandD : MergeTypeCandidate :=
  { type := { ref := 31, name := "U", kind := TypeKind.object },
    subschema := some 4, transformedSchema := some 14, schemaName := none }

/-- Concrete conflict callback that always returns the right-hand type. -/
def exConflictRight : OnTypeConflictFn := fun _ r _ => r

/-- Concrete conflict callback returning a freshly constructed type object
that copies the left type's name and kind: a new object, hence a ref
neither input has. -/
def exConflictFresh : OnTypeConflictFn :=
  fun l _ _ => { ref := 99, name := l.name, kind := l.kind }

/-- Concrete result value with no attached error list. -/
def exResNoErrs : ResultValue := { data := 0, subschemaErrors := none }

theorem lookupRec_setRec {α : Type} (r : List (String × α)) (k key : String) (v : α) :
    lookupRec (setRec r k v) key = if k = key then some v else lookupRec r key := by
  induction r with
  | nil =>
      simp only [setRec, lookupRec]
  | cons hd tl ih =>
      obtain ⟨k1, w⟩ := hd
      by_cases h1 : k1 = k
      · subst h1
        simp only [setRec, if_pos rfl, lookupRec]
        split_ifs <;> rfl
      · simp only [setRec, if_neg h1, lookupRec, ih]
        split_ifs with h2 h3 <;> simp_all

theorem getErrorsByPathSegmentStep_eq (record : List (String × List GraphQLError))
    (e : GraphQLError) :
    getErrorsByPathSegmentStep record e =
      match childKey e with
      | none => record
      | some k => setRec record k (((lookupRec record k).getD []) ++ [slicedError e]) := by
  cases hp : e.path with
  | none => simp [getErrorsByPathSegmentStep, childKey, hp]
  | some l =>
      cases l with
      | nil => simp [getErrorsByPathSegmentStep, childKey, hp]
      | cons a l2 =>
          cases l2 with
          | nil => simp [getErrorsByPathSegmentStep, childKey, hp]
          | cons b l3 => simp [getErrorsByPathSegmentStep, childKey, hp]

theorem slicedError_eq_strip (e : GraphQLError) :
    slicedError e = { e with path := Option.map List.tail e.path } := by
  cases hp : e.path <;> simp [slicedError, relocatedError, hp]

theorem childGroup_cons (e : GraphQLError) (rest : List GraphQLError) (key : String) :
    childGroup (e :: rest) key =
      if childKey e = some key
      then { e with path := Option.map List.tail e.path } :: childGroup rest key
      else childGroup rest key := by
  by_cases h : childKey e = some key <;> simp [childGroup, List.filter_cons, h]

theorem getErrorsByPathSegment_foldl (errors : List GraphQLError)
    (record : List (String × List GraphQLError)) (key : String) :
    lookupRec (List.foldl getErrorsByPathSegmentStep record errors) key =
      match lookupRec record key with
      | some cur => some (cur ++ childGroup errors key)
      | none =>
          if childGroup errors key = [] then none
          else some (childGroup errors key) := by
  induction errors generalizing record with
  | nil =>
      cases h : lookupRec record key <;> simp [childGroup, h]
  | cons e rest ih =>
      rw [List.foldl_cons, ih, getErrorsByPathSegmentStep_eq, childGroup_cons]
      cases hck : childKey e with
      | none =>
          simp
      | some k =>
          by_cases hkey : k = key
          · subst hkey
            rw [lookupRec_setRec, if_pos rfl]
            cases hrec : lookupRec record k with
            | some cur =>
                simp [hrec, slicedError_eq_strip, List.append_assoc]
            | none =>
                simp [hrec, slicedError_eq_strip]
          · rw [lookupRec_setRec, if_neg hkey]
            simp [Option.some.injEq, hkey]

/-- C1 (amended): `getErrorsByPathSegment` partitions the errors by the
string form of the SECOND element of each error's path (equivalently, the
first element of the path that remains after the leading segment is
stripped): errors with no path or fewer than two path segments are dropped,
and the record entry for a key is exactly the retained errors whose second
path segment stringifies to that key, in input order, each with its one
leading path segment stripped. -/
theorem c1_group_by_second_path_segment (errors : List GraphQLError) (key : String) :
    lookupRec (getErrorsByPathSegment errors) key =
      if childGroup errors key = [] then none
      else some (childGroup errors key) := by
  have h := getErrorsByPathSegment_foldl errors [] key
  simpa [getErrorsByPathSegment, lookupRec] using h

/-- C1 counterexample: on the claimed example
[e1(path=[x,1]), e2(path=[y]), e3(path=[x,2])] the record has NO entry
under "x"; instead e1 is filed under "1" and e3 under "2" (each with the
leading segment stripped), because the code keys the record by
error.path[1], not by the first path element. -/
theorem c1_counterexample :
    lookupRec (getErrorsByPathSegment [exGroupE1, exGroupE2, exGroupE3]) "x" = none ∧
    lookupRec (getErrorsByPathSegment [exGroupE1, exGroupE2, exGroupE3]) "1" =
      some [{ exGroupE1 with path := some [PathSegment.idx 1] }] ∧
    lookupRec (getErrorsByPathSegment [exGroupE1, exGroupE2, exGroupE3]) "2" =
      some [{ exGroupE3 with path := some [PathSegment.idx 2] }] := by
  decide

/-- C2 (amended): `relocatedError(e, null)` CLEARS the path (the new error
has no path); `relocatedError(e)` with the path argument omitted keeps the
original path unchanged; `relocatedError(e, explicitPath)` sets the path to
exactly `explicitPath` (so an explicit `[]` yields the empty path, not an
absent one); in every case message, nodes, source, positions (hence the
derived locations), originalError and extensions are copied unchanged into
a newly constructed error. -/
theorem c2_relocated_error_paths (e : GraphQLError) (a : PathArg)
    (p : List PathSegment) :
    (relocatedError e PathArg.nullArg).path = none ∧
    (relocatedError e PathArg.noArg).path = e.path ∧
    (relocatedError e (PathArg.pathArg p)).path = some p ∧
    (relocatedError e a).message = e.message ∧
    (relocatedError e a).nodes = e.nodes ∧
    (relocatedError e a).source = e.source ∧
    (relocatedError e a).positions = e.positions ∧
    (relocatedError e a).originalError = e.originalError ∧
    (relocatedError e a).extensions = e.extensions := by
  cases a <;> exact ⟨rfl, rfl, rfl, rfl, rfl, rfl, rfl, rfl, rfl⟩

/-- C2 counterexample: for a concrete error whose path is [x], passing
`null` does not leave the path unchanged — it clears it — and passing `[]`
does not clear the path — it sets it to the (present) empty path. -/
theorem c2_counterexample :
    exRelocErr.path = some [PathSegment.str "x"] ∧
    (relocatedError exRelocErr PathArg.nullArg).path = none ∧
    (relocatedError exRelocErr (PathArg.pathArg [])).path = some [] := by
  exact ⟨rfl, rfl, rfl⟩

theorem lookupRec_opFold (ots : List OperationTypeDef)
    (acc : List (String × String)) (op : String) :
    lookupRec (List.foldl (fun a ot => setRec a ot.operation ot.typeName) acc ots) op =
      match findLastOp ots op with
      | some n => some n
      | none => lookupRec acc op := by
  induction ots generalizing acc with
  | nil => simp [findLastOp]
  | cons ot rest ih =>
      rw [List.foldl_cons, ih]
      simp only [findLastOp]
      cases h : findLastOp rest op with
      | some n => simp
      | none =>
          rw [lookupRec_setRec]
          by_cases ho : ot.operation = op <;> simp [ho]

theorem lookupRec_nodeFold (nodes : List SchemaNode)
    (acc : List (String × String)) (op : String) :
    lookupRec (List.foldl
        (fun acc2 node =>
          match node.operationTypes with
          | some ots =>
              List.foldl (fun a ot => setRec a ot.operation ot.typeName) acc2 ots
          | none => acc2)
        acc nodes) op =
      match lastAssignment nodes op with
      | some n => some n
      | none => lookupRec acc op := by
  induction nodes generalizing acc with
  | nil => simp [lastAssignment]
  | cons node rest ih =>
      rw [List.foldl_cons, ih]
      simp only [lastAssignment]
      cases h : lastAssignment rest op with
      | some n => simp
      | none =>
          cases hot : node.operationTypes with
          | none => simp [nodeAssigns, hot]
          | some ots =>
              rw [lookupRec_opFold]
              simp only [nodeAssigns, hot]

/-- C3 (amended): root-operation name resolution is last-seen-wins over the
node list [definition node (when present), then the extension nodes in
order]: the recorded name for an operation is the one given by the LAST
node in that list that assigns the operation (so extension nodes override
the definition node, and later extensions override earlier ones), falling
back to the previously recorded name when no node assigns it. -/
theorem c3_last_node_wins (schemaDef : Option SchemaNode)
    (schemaExtensions : List SchemaNode)
    (operationTypeNames : List (String × String)) (op : String) :
    lookupRec (setOperationTypeNames schemaDef schemaExtensions operationTypeNames) op =
      match lastAssignment (allOperationNodes schemaDef schemaExtensions) op with
      | some n => some n
      | none => lookupRec operationTypeNames op := by
  unfold setOperationTypeNames
  exact lookupRec_nodeFold _ _ _

/-- C3 counterexample: with a definition node assigning the query role to
"A" and one extension node assigning it to "B", the recorded query type
name is "B" — the extension node overrides the definition node, because
`setOperationTypeNames` unshifts the definition node to the FRONT of the
node list and later assignments win. -/
theorem c3_counterexample :
    lookupRec (setOperationTypeNames (some exSchemaDef) [exSchemaExt] []) "query" =
      some "B" ∧
    lookupRec (setOperationTypeNames (some exSchemaDef) [exSchemaExt] []) "query" ≠
      some "A" := by
  decide

/-- C4: whenever the type name equals a resolved root-operation type name
(the recorded query, mutation or subscription name), `buildTypeMap`
composes the type by calling `mergeCandidates` on the full candidate list —
never by single-winner selection — for every merge policy, every conflict
callback (present or absent), every stitching info and every candidate
list. -/
theorem c4_root_types_always_merged
    (mergeCandidates : String → List MergeTypeCandidate → Option Nat → GType)
    (stitchingInfo : Option StitchingInfoKeys)
    (operationTypeNames : List (String × String))
    (onTypeConflict : Option OnTypeConflictFn)
    (mergeTypes : MergeTypesPolicy) (typeMergingOptions : Option Nat)
    (typeName : String) (cands : List MergeTypeCandidate)
    (hroot : lookupRec operationTypeNames "query" = some typeName ∨
             lookupRec operationTypeNames "mutation" = some typeName ∨
             lookupRec operationTypeNames "subscription" = some typeName) :
    buildTypeMapEntry mergeCandidates stitchingInfo operationTypeNames
        onTypeConflict mergeTypes typeMergingOptions typeName cands =
      some (mergeCandidates typeName cands typeMergingOptions) := by
  have hs : shouldMergeType operationTypeNames mergeTypes stitchingInfo
      typeName cands = true := by
    unfold shouldMergeType
    rcases hroot with h | h | h <;> simp [h]
  simp [buildTypeMapEntry, hs]

/-- C4 witness: the query root name "Q" is merged even under the
single-select policy (mergeTypes = false) with no conflict callback. -/
theorem c4_witness :
    buildTypeMapEntry exMergeCandidates none [("query", "Q")] none
        (MergeTypesPolicy.bool false) none "Q" [exCandA] =
      some { ref := 100, name := "Q", kind := TypeKind.object } := by
  have h := c4_root_types_always_merged exMergeCandidates none [("query", "Q")]
      none (MergeTypesPolicy.bool false) none "Q" [exCandA] (Or.inl (by decide))
  exact h.trans (by decide)

/-- C5: when a type name falls to single-winner selection (its merge
condition is false) and no conflict callback is supplied, the composite
type is the type of the LAST candidate in the list; in particular a
single-candidate list yields exactly that candidate's type. -/
theorem c5_single_winner_is_last
    (mergeCandidates : String → List MergeTypeCandidate → Option Nat → GType)
    (stitchingInfo : Option StitchingInfoKeys)
    (operationTypeNames : List (String × String))
    (mergeTypes : MergeTypesPolicy) (typeMergingOptions : Option Nat)
    (typeName : String) (cands : List MergeTypeCandidate)
    (c : MergeTypeCandidate)
    (hsel : shouldMergeType operationTypeNames mergeTypes stitchingInfo
      typeName cands = false) :
    buildTypeMapEntry mergeCandidates stitchingInfo operationTypeNames none
        mergeTypes typeMergingOptions typeName cands =
      (List.getLast? cands).map (fun c2 => c2.type) ∧
    (cands = [c] →
      buildTypeMapEntry mergeCandidates stitchingInfo operationTypeNames none
          mergeTypes typeMergingOptions typeName cands = some c.type) := by
  constructor
  · simp [buildTypeMapEntry, hsel]
  · intro hc
    subst hc
    simp [buildTypeMapEntry, hsel, List.getLast?]

/-- C5 witness: with two candidates for the non-root name "T", no merge
configuration and no callback, the second (last) candidate's type wins. -/
theorem c5_witness :
    buildTypeMapEntry exMergeCandidates none [] none (MergeTypesPolicy.bool false)
        none "T" [exCandA, exCandB] = some exCandB.type := by
  have h := c5_single_winner_is_last exMergeCandidates none []
      (MergeTypesPolicy.bool false) none "T" [exCandA, exCandB] exCandA (by decide)
  exact h.1.trans (by decide)

/-- C6: with a conflict callback, selection is a left-to-right pairwise
reduction of the candidate list by `conflictStep`; each step hands the
callback the two competing types plus each side's transformed schema, keeps
the accumulator when the callback returns its type, moves to the right
candidate when the callback returns its type, and otherwise replaces the
accumulator by a synthetic candidate carrying the returned type whose
schemaName is "unknown" and which has no originating (sub)schema. -/
theorem c6_conflict_selector_behaviour (cb : OnTypeConflictFn)
    (c : MergeTypeCandidate) (rest : List MergeTypeCandidate)
    (prev next : MergeTypeCandidate) :
    onTypeConflictToCandidateSelector cb (c :: rest) =
      some (List.foldl (conflictStep cb) c rest) ∧
    (prev.type = cb prev.type next.type
        { left := { schema := prev.transformedSchema }
          right := { schema := next.transformedSchema } } →
      conflictStep cb prev next = prev) ∧
    (prev.type ≠ cb prev.type next.type
        { left := { schema := prev.transformedSchema }
          right := { schema := next.transformedSchema } } →
      next.type = cb prev.type next.type
        { left := { schema := prev.transformedSchema }
          right := { schema := next.transformedSchema } } →
      conflictStep cb prev next = next) ∧
    (prev.type ≠ cb prev.type next.type
        { left := { schema := prev.transformedSchema }
          right := { schema := next.transformedSchema } } →
      next.type ≠ cb prev.type next.type
        { left := { schema := prev.transformedSchema }
          right := { schema := next.transformedSchema } } →
      conflictStep cb prev next =
        { type := cb prev.type next.type
            { left := { schema := prev.transformedSchema }
              right := { schema := next.transformedSchema } }
          subschema := none, transformedSchema := none,
          schemaName := some "unknown" }) := by
  refine ⟨rfl, ?_, ?_, ?_⟩
  · intro h1
    simp only [conflictStep]
    rw [if_pos h1]
  · intro h1 h2
    simp only [conflictStep]
    rw [if_neg h1, if_pos h2]
  · intro h1 h2
    simp only [conflictStep]
    rw [if_neg h1, if_neg h2]

/-- C6 witness: a left-preferring callback keeps the left accumulator; on
two reference-distinct candidates whose types share name and kind, a
right-preferring callback moves to the RIGHT candidate (reference, not
structural-shape, equality decides the branch), and in the whole selector
the right candidate — with its subschema handles — is the result; a
callback returning a fresh object copying the left type's name and kind
matches neither input by reference and so produces the synthetic
schemaName-"unknown" candidate. -/
theorem c6_witness :
    conflictStep exConflictLeft exCandA exCandB = exCandA ∧
    conflictStep exConflictRight exCandC exCandD = exCandD ∧
    onTypeConflictToCandidateSelector exConflictRight [exCandC, exCandD] =
      some exCandD ∧
    conflictStep exConflictFresh exCandC exCandD =
      { type := { ref := 99, name := "U", kind := TypeKind.object },
        subschema := none, transformedSchema := none,
        schemaName := some "unknown" } := by
  have hl := c6_conflict_selector_behaviour exConflictLeft exCandA [exCandB]
      exCandA exCandB
  have hr := c6_conflict_selector_behaviour exConflictRight exCandC [exCandD]
      exCandC exCandD
  have hf := c6_conflict_selector_behaviour exConflictFresh exCandC [exCandD]
      exCandC exCandD
  have hstepR : conflictStep exConflictRight exCandC exCandD = exCandD :=
    hr.2.2.1 (by decide) rfl
  refine ⟨hl.2.1 rfl, hstepR, ?_, ?_⟩
  · rw [hr.1]
    simp [hstepR]
  · exact (hf.2.2.2 (by decide) (by decide)).trans (by decide)

/-- C7: under the merge-all policy (mergeTypes = true), a non-root type
name not covered by stitching info is merged exactly when no candidate is a
built-in (specified) scalar type; when some candidate is a built-in scalar
the name falls to single-winner selection (last candidate without a
callback, pairwise reduction with one). -/
theorem c7_merge_all_excludes_specified_scalars
    (mergeCandidates : String → List MergeTypeCandidate → Option Nat → GType)
    (stitchingInfo : Option StitchingInfoKeys)
    (operationTypeNames : List (String × String))
    (onTypeConflict : Option OnTypeConflictFn) (typeMergingOptions : Option Nat)
    (typeName : String) (cands : List MergeTypeCandidate)
    (hq : lookupRec operationTypeNames "query" ≠ some typeName)
    (hm : lookupRec operationTypeNames "mutation" ≠ some typeName)
    (hs : lookupRec operationTypeNames "subscription" ≠ some typeName)
    (hsi : ∀ si, stitchingInfo = some si →
      si.mergedTypes.contains typeName = false) :
    ((cands.any (fun c => isSpecifiedScalarType c.type)) = false →
      buildTypeMapEntry mergeCandidates stitchingInfo operationTypeNames
          onTypeConflict (MergeTypesPolicy.bool true) typeMergingOptions
          typeName cands =
        some (mergeCandidates typeName cands typeMergingOptions)) ∧
    ((cands.any (fun c => isSpecifiedScalarType c.type)) = true →
      buildTypeMapEntry mergeCandidates stitchingInfo operationTypeNames
          onTypeConflict (MergeTypesPolicy.bool true) typeMergingOptions
          typeName cands =
        match onTypeConflict with
        | some cb => (onTypeConflictToCandidateSelector cb cands).map
            (fun c => c.type)
        | none => (List.getLast? cands).map (fun c => c.type)) := by
  have hval : shouldMergeType operationTypeNames (MergeTypesPolicy.bool true)
      stitchingInfo typeName cands =
        !(cands.any (fun c => isSpecifiedScalarType c.type)) := by
    unfold shouldMergeType
    cases stitchingInfo with
    | none => simp [hq, hm, hs]
    | some si =>
        have hmem : typeName ∉ si.mergedTypes := by simpa using hsi si rfl
        simp [hq, hm, hs, hmem]
  constructor
  · intro hany
    simp [buildTypeMapEntry, hval, hany]
  · intro hany
    simp only [buildTypeMapEntry, hval, hany]
    simp

/-- C7 witness: the built-in String scalar, contributed once under the
merge-all policy with no callback, is NOT merged — the (single, last)
candidate's type is selected instead. -/
theorem c7_witness :
    buildTypeMapEntry exMergeCandidates none [] none (MergeTypesPolicy.bool true)
        none "String" [exCandScalar] = some exCandScalar.type := by
  have h := c7_merge_all_excludes_specified_scalars exMergeCandidates none []
      none none "String" [exCandScalar] (by decide) (by decide) (by decide)
      (fun si hcontra => nomatch hcontra)
  exact (h.2 (by decide)).trans (by decide)

/-- C8: `WrapType(outer, inner, field)` is observationally the underlying
`WrapFields(outer, [field], [inner])`: each of its three phases returns
exactly what that WrapFields transform returns on the same inputs, for
every WrapFields implementation. -/
theorem c8_wraptype_delegates_to_wrapfields
    (wrapFields : String → List String → List String → Transform)
    (outerTypeName innerTypeName fieldName : String)
    (schema : GraphQLSchemaRef) (subschemaConfig : Option SubschemaConfigRef)
    (req : RequestRef) (res : ExecutionResultRef)
    (delegationContext : DelegationContextRef)
    (transformationContext : TransformationContextRef) :
    (WrapType wrapFields outerTypeName innerTypeName fieldName).transformSchema
        schema subschemaConfig =
      (wrapFields outerTypeName [fieldName] [innerTypeName]).transformSchema
        schema subschemaConfig ∧
    (WrapType wrapFields outerTypeName innerTypeName fieldName).transformRequest
        req delegationContext transformationContext =
      (wrapFields outerTypeName [fieldName] [innerTypeName]).transformRequest
        req delegationContext transformationContext ∧
    (WrapType wrapFields outerTypeName innerTypeName fieldName).transformResult
        res delegationContext transformationContext =
      (wrapFields outerTypeName [fieldName] [innerTypeName]).transformResult
        res delegationContext transformationContext := by
  exact ⟨rfl, rfl, rfl⟩

theorem errorAppliesTo_iff (e : GraphQLError) (fieldName : String) :
    errorAppliesTo e fieldName = true ↔
      (e.path = none ∨
        ∃ rest, e.path = some (PathSegment.str fieldName :: rest)) := by
  cases hp : e.path with
  | none => simp [errorAppliesTo, hp]
  | some l =>
      cases l with
      | nil => simp [errorAppliesTo, hp]
      | cons seg rest2 =>
          cases seg with
          | str s => simp [errorAppliesTo, hp]
          | idx n => simp [errorAppliesTo, hp]

/-- C9: `setErrors` stores the list in the hidden slot without touching the
visible content, and `getErrors` on the same result then returns exactly
the attached errors whose leading path segment is the requested field name
together with those carrying no path at all (which pass for every field
name), in attachment order. -/
theorem c9_set_then_get_errors (r : ResultValue) (errors : List GraphQLError)
    (fieldName : String) :
    (setErrors r errors).data = r.data ∧
    getErrors (some (setErrors r errors)) fieldName =
      some (errors.filter (fun e => errorAppliesTo e fieldName)) ∧
    ∀ e, e ∈ errors.filter (fun e2 => errorAppliesTo e2 fieldName) ↔
      (e ∈ errors ∧
        (e.path = none ∨
          ∃ rest, e.path = some (PathSegment.str fieldName :: rest))) := by
  refine ⟨rfl, rfl, ?_⟩
  intro e
  rw [List.mem_filter]
  exact and_congr_right (fun _ => errorAppliesTo_iff e fieldName)

/-- C10: `getErrors` returns null (none) on a nullish result and on a
result with no attached error list; when a list is attached, the empty list
is returned exactly when no attached error has an absent path or a leading
path segment equal to the field name. -/
theorem c10_get_errors_null_vs_empty (r : ResultValue) (fieldName : String) :
    getErrors none fieldName = none ∧
    (r.subschemaErrors = none → getErrors (some r) fieldName = none) ∧
    (∀ es, r.subschemaErrors = some es →
      (getErrors (some r) fieldName = some [] ↔
        ∀ e ∈ es, errorAppliesTo e fieldName = false)) := by
  refine ⟨rfl, ?_, ?_⟩
  · intro h
    simp [getErrors, h]
  · intro es h
    simp [getErrors, h, List.filter_eq_nil_iff]

/-- C10 witness: a result value with no attached error list yields null,
not an empty list. -/
theorem c10_witness : getErrors (some exResNoErrs) "a" = none := by
  exact (c10_get_errors_null_vs_empty exResNoErrs "a").2.1 rfl

end GraphQLTools
